import Mathlib

/-!
Verification of the systemd-notices daemon and its file-based polling
companion. Python strings are modelled as Lean `String`s (lists of
characters), Python dicts as association lists, and the DBus / subprocess
boundary as explicit function parameters. Every definition mirrors the
corresponding Python function from the repository.
-/

set_option autoImplicit false

/-- Python `str.replace(pat, rep)` for a one-character pattern `a`:
left-to-right, non-overlapping replacement. -/
def replace1 (a : Char) (rep : List Char) : List Char → List Char
  | [] => []
  | x :: rest => if x = a then rep ++ replace1 a rep rest else x :: replace1 a rep rest

/-- Python `str.replace(pat, rep)` for a three-character pattern `a b c`:
left-to-right, non-overlapping replacement. -/
def replace3 (a b c : Char) (rep : List Char) : List Char → List Char
  | x :: y :: z :: rest =>
    if x = a ∧ y = b ∧ z = c then rep ++ replace3 a b c rep rest
    else x :: replace3 a b c rep (y :: z :: rest)
  | l => l

/-- `os.path.basename`: the part of the path after the last `/`. -/
def basename (l : List Char) : List Char :=
  (l.reverse.takeWhile (fun c => c ≠ '/')).reverse

/-- The escape table `DBUS_CHAR_MAPPINGS` of the daemon, in Python dict
insertion order: token ↦ character. -/
def DBUS_CHAR_MAPPINGS : List (String × Char) :=
  [("_40", '@'), ("_2e", '.'), ("_5f", '_'), ("_2d", '-'), ("_5c", '\\')]

/-- `_name_to_dbus_path`: applies `path.replace(value, key)` for each entry of
`DBUS_CHAR_MAPPINGS` in insertion order ('@' → "_40", '.' → "_2e", '_' → "_5f",
'-' → "_2d", '\' → "_5c"), then prefixes the unit namespace. -/
def _name_to_dbus_path (name : String) : String :=
  ⟨"/org/freedesktop/systemd1/unit/".data ++
    (replace1 '\\' "_5c".data
      (replace1 '-' "_2d".data
        (replace1 '_' "_5f".data
          (replace1 '.' "_2e".data
            (replace1 '@' "_40".data name.data)))))⟩

/-- `_dbus_path_to_name`: takes `os.path.basename` of the path, then applies
`name.replace(key, value)` for each entry of `DBUS_CHAR_MAPPINGS` in insertion
order ("_40" → '@', "_2e" → '.', "_5f" → '_', "_2d" → '-', "_5c" → '\'). -/
def _dbus_path_to_name (path : String) : String :=
  ⟨replace3 '_' '5' 'c' ['\\']
    (replace3 '_' '2' 'd' ['-']
      (replace3 '_' '5' 'f' ['_']
        (replace3 '_' '2' 'e' ['.']
          (replace3 '_' '4' '0' ['@'] (basename path.data)))))⟩

/-- Python dict lookup `d.get(k)` on an association list (first match wins). -/
def dictGet : List (String × String) → String → Option String
  | [], _ => none
  | (k', v') :: rest, k => if k' = k then some v' else dictGet rest k

/-- Python dict assignment `d[k] = v`: replace the value of an existing key in
place, or append a new binding. -/
def dictSet : List (String × String) → String → String → List (String × String)
  | [], k, v => [(k, v)]
  | (k', v') :: rest, k, v =>
    if k' = k then (k, v) :: rest else (k', v') :: dictSet rest k v

/-- Python `s.endswith(suffix)`. -/
def strEndsWith (s suffix : String) : Bool :=
  suffix.data.length ≤ s.data.length &&
    s.data.drop (s.data.length - suffix.data.length) == suffix.data

/-- The part of a DBus `PropertiesChanged` message the daemon inspects: the
source object path and the changed-properties dictionary (`msg.body[1]`),
with each variant collapsed to its string `.value`. -/
structure Message where
  path : String
  properties : List (String × String)
deriving DecidableEq

/-- The Transition value object of the spec: `{service identifier, new state,
previous state}`. The daemon materialises it as the arguments of the scheduled
`_send_juju_notification(service, curr_state)` call together with the cache
value `prev_state` it just replaced. -/
structure Transition where
  service : String
  curr : String
  prev : String
deriving DecidableEq

/-- Result of one `_systemd_unit_changed` callback invocation: the state cache
after the call, the at-most-one notification task it scheduled, and its boolean
return value. -/
structure FilterResult where
  states : List (String × String)
  notification : Option Transition
  accepted : Bool
deriving DecidableEq

/-- `_systemd_unit_changed`, as a pure function of the global `SERVICE_STATES`
cache and the inbound message. Mirrors the Python control flow: decode the
path; drop if `ActiveState` is not among the changed properties; drop if the
service is unwatched; drop transitioning (`endswith("ing")`) and duplicate
states; otherwise write the cache and schedule one notification. -/
def _systemd_unit_changed (states : List (String × String)) (msg : Message) :
    FilterResult :=
  let service := _dbus_path_to_name msg.path
  match dictGet msg.properties "ActiveState" with
  | none => ⟨states, none, false⟩
  | some curr =>
    match dictGet states service with
    | none => ⟨states, none, false⟩
    | some prev =>
      if strEndsWith curr "ing" = true ∨ curr = prev then ⟨states, none, false⟩
      else ⟨dictSet states service curr, some ⟨service, curr, prev⟩, true⟩

/-- `_send_juju_notification`, as the command line it hands to
`asyncio.create_subprocess_exec`, parameterised by the global `JUJU_UNIT`. -/
def _send_juju_notification (juju_unit service state : String) : List String :=
  let name := if strEndsWith service ".service" = true
    then ⟨service.data.take (service.data.length - ".service".data.length)⟩
    else service
  let event_name := if state = "active" then "started" else "stopped"
  ["/usr/bin/juju-exec", juju_unit, "hooks/" ++ ("service-" ++ name ++ "-" ++ event_name)]

/-- Spec-side description of the dispatcher's name handling: strip a trailing
`.service` unit-type suffix from the service identifier if present. -/
def specStripName (service : String) : String :=
  if strEndsWith service ".service" = true
  then ⟨service.data.take (service.data.length - 8)⟩
  else service

/-- Spec-side mapping of a settled activation state to a transition kind:
`"active"` maps to `"started"`, every other settled value to `"stopped"`. -/
def specTransitionKind (state : String) : String :=
  if state = "active" then "started" else "stopped"

/-- Characters of the regex class `[\w\\:-]` of `SERVICE_HOOK_RE`
(ASCII word characters, backslash, colon, hyphen). -/
def isClassChar (c : Char) : Bool :=
  c.isAlpha || c.isDigit || c = '_' || c = '\\' || c = ':' || c = '-'

/-- Whether the regex tail `-(?:started|stopped)` matches at the head of `l`
(anything may follow, since the pattern is used with `re.match`). -/
def hookTailOk (l : List Char) : Bool :=
  "-started".data.isPrefixOf l || "-stopped".data.isPrefixOf l

/-- Greedy matching of the group `([\w\\:-]*)` followed by `-(?:started|stopped)`
against `rest`: try the longest group first (a group candidate must consist of
class characters only) and backtrack one character at a time. -/
def greedyMatch (rest : List Char) : Nat → Option (List Char)
  | 0 => if hookTailOk rest then some [] else none
  | Nat.succ k =>
    if (rest.take (k + 1)).all isClassChar && hookTailOk (rest.drop (k + 1)) then
      some (rest.take (k + 1))
    else greedyMatch rest k

/-- `SERVICE_HOOK_RE.match(name)` returning `match.group("service")`:
the pattern is `service-(?P<service>[\w\\:-]*)-(?:started|stopped)`,
anchored at the start of the string only. -/
def serviceHookMatch (name : String) : Option String :=
  if "service-".data.isPrefixOf name.data then
    match greedyMatch (name.data.drop 8) (name.data.drop 8).length with
    | some grp => some ⟨grp⟩
    | none => none
  else none

/-- The `.service`-suffixing step of the `_load_services` loop. -/
def suffixService (name : String) : String :=
  if strEndsWith name ".service" = true then name else name ++ ".service"

/-- Result of one discovery pass: the state cache afterwards, and the list of
services whose state was queried over the bus during the pass (in order). -/
structure DiscoveryResult where
  states : List (String × String)
  queries : List String
deriving DecidableEq

/-- Body of the `for service in watched_services` loop of `_load_services`:
suffix the name with `.service` if absent; if the result is not yet cached,
query its state once and insert it. -/
def discoverStep (getState : String → String) (acc : DiscoveryResult)
    (name : String) : DiscoveryResult :=
  let service := suffixService name
  match dictGet acc.states service with
  | some _ => acc
  | none => ⟨acc.states ++ [(service, getState service)], acc.queries ++ [service]⟩

/-- `_load_services`, as a pure function of the hook directory listing, the
bus state-query function, and the prior `SERVICE_STATES` cache. A missing
hooks directory is the empty listing; an empty watch set returns early with
the cache unchanged, which coincides with the empty fold. -/
def _load_services (hookNames : List String) (getState : String → String)
    (states : List (String × String)) : DiscoveryResult :=
  (hookNames.filterMap serviceHookMatch).foldl (discoverStep getState) ⟨states, []⟩

/-- A DBus error, as caught by `_get_state` (`dbus_next.errors.DBusError`). -/
structure DBusError where
  message : String
deriving DecidableEq

/-- `_get_state`: the whole introspect/proxy/`Get('ActiveState')` interaction
against the unit's object path is the `query` parameter; any `DBusError`
raised inside the `try` block yields `"unknown"`. -/
def _get_state (query : String → Except DBusError String) (service : String) :
    String :=
  match query (_name_to_dbus_path service) with
  | Except.ok v => v
  | Except.error _ => "unknown"

/-- Python `s.rfind(c)`: index of the last occurrence of `c`, if any. -/
def pyRfind (c : Char) : List Char → Option Nat
  | [] => none
  | x :: xs =>
    match pyRfind c xs with
    | some j => some (j + 1)
    | none => if x = c then some 0 else none

/-- `pathlib.PurePath.suffix` of a file name: `name[i:]` where `i` is the index
of the last dot, provided `0 < i < len(name) - 1`; otherwise empty. -/
def pySuffix (name : List Char) : List Char :=
  match pyRfind '.' name with
  | none => []
  | some i => if 0 < i ∧ i + 1 < name.length then name.drop i else []

/-- The file name `record_event` writes for service `s` and event `e`:
`f"{service.replace('-', '_')}.{event}"`. -/
def record_event_filename (service event : List Char) : List Char :=
  replace1 '-' ['_'] service ++ '.' :: event

/-- The event name `process_notices` computes from a notice file name:
`service_name = name[:-len(suffix)]` (Python slicing: empty when the suffix is
empty) and `event = f"service-{service_name}-{suffix[1:]}"`. -/
def noticeEventOfFilename (filename : List Char) : List Char :=
  "service-".data ++
    (if (pySuffix filename).isEmpty then []
     else filename.take (filename.length - (pySuffix filename).length)) ++
    '-' :: (pySuffix filename).drop 1

/-- `"/".join(info["unit"].rsplit("-", 1))`: replace the last `-` with `/`
(identity when there is no `-`). -/
def unitFieldToUnit (u : List Char) : List Char :=
  match pyRfind '-' u with
  | none => u
  | some i => u.take i ++ '/' :: u.drop (i + 1)

/-- A notice file as `process_notices` reads it: its file name and the
`"unit"` field of its JSON payload. -/
structure Notice where
  name : List Char
  unitField : List Char
deriving DecidableEq

/-- `send_event`: runs `/usr/bin/juju-exec <unit> hooks/<event>` through the
`exec` oracle (exit status of `subprocess.run`); `True` exactly when the
command exits 0 (`check=True` raises otherwise). -/
def send_event (exec : List (List Char) → Nat) (unit event : List Char) : Bool :=
  exec ["/usr/bin/juju-exec".data, unit, "hooks/".data ++ event] == 0

/-- Result of one `process_notices` polling pass: the notice files still
present afterwards (send failed ⇒ not unlinked), and each `(unit, event)`
delivery that was attempted, in processing order. -/
structure PollResult where
  remaining : List Notice
  attempted : List (List Char × List Char)
deriving DecidableEq

/-- `process_notices` over the mtime-ordered notice list: for each notice,
derive `(unit, event)` from the file, attempt delivery, and unlink the file
exactly when `send_event` returned `True`. -/
def process_notices (exec : List (List Char) → Nat) : List Notice → PollResult
  | [] => ⟨[], []⟩
  | n :: ns =>
    let unit := unitFieldToUnit n.unitField
    let event := noticeEventOfFilename n.name
    let r := process_notices exec ns
    if send_event exec unit event then ⟨r.remaining, (unit, event) :: r.attempted⟩
    else ⟨n :: r.remaining, (unit, event) :: r.attempted⟩

/-- Sanity check of the polling-path model on concrete inputs: the notice file
name round-trips into the hook name, the unit field is rewritten at its last
hyphen, and a failed delivery leaves the notice file in place. -/
theorem polling_model_samples :
    noticeEventOfFilename (record_event_filename "my-svc".data "started".data) =
      "service-my_svc-started".data ∧
    unitFieldToUnit "unit-name-0".data = "unit-name/0".data ∧
    process_notices (fun _ => 1) [⟨"web.started".data, "u-0".data⟩] =
      ⟨[⟨"web.started".data, "u-0".data⟩],
        [("u/0".data, "service-web-started".data)]⟩ := by
  refine ⟨by decide, by decide, by decide⟩

theorem dictGet_dictSet_self (l : List (String × String)) (k v : String) :
    dictGet (dictSet l k v) k = some v := by
  induction l with
  | nil => simp [dictSet, dictGet]
  | cons p rest ih =>
    obtain ⟨k', v'⟩ := p
    by_cases h : k' = k <;> simp [dictSet, dictGet, h, ih]

theorem dictGet_dictSet_of_ne (l : List (String × String)) (k k' v : String)
    (h : k' ≠ k) : dictGet (dictSet l k' v) k = dictGet l k := by
  induction l with
  | nil => simp [dictSet, dictGet, h]
  | cons p rest ih =>
    obtain ⟨ka, va⟩ := p
    by_cases hk : ka = k' <;> simp [dictSet, dictGet, hk, h, ih]

theorem dictGet_append_some (l l' : List (String × String)) (k v : String)
    (h : dictGet l k = some v) : dictGet (l ++ l') k = some v := by
  induction l with
  | nil => simp [dictGet] at h
  | cons p rest ih =>
    obtain ⟨k', v'⟩ := p
    by_cases hk : k' = k
    · simpa [dictGet, hk] using h
    · simp only [dictGet, hk, if_false, List.cons_append] at h ⊢
      exact ih h

theorem dictGet_append_self (l : List (String × String)) (k v : String)
    (h : dictGet l k = none) : dictGet (l ++ [(k, v)]) k = some v := by
  induction l with
  | nil => simp [dictGet]
  | cons p rest ih =>
    obtain ⟨k', v'⟩ := p
    by_cases hk : k' = k
    · simp [dictGet, hk] at h
    · simp only [dictGet, hk, if_false] at h
      simp only [List.cons_append, dictGet, hk, if_false]
      exact ih h

/-- Sanity check of the daemon model on concrete inputs: the regex model
extracts hook names greedily (including hyphenated service names), a real
systemd object path decodes to its unit name, discovery loads one entry per
distinct hook name, and the codec round-trips names without `@` or `.`. -/
theorem daemon_model_samples :
    serviceHookMatch "service-web-started" = some "web" ∧
    serviceHookMatch "service-web-stopped" = some "web" ∧
    serviceHookMatch "dispatch" = none ∧
    serviceHookMatch "service-a-b-started" = some "a-b" ∧
    _load_services ["service-web-started", "service-web-stopped"]
        (fun _ => "inactive") [] =
      ⟨[("web.service", "inactive")], ["web.service"]⟩ ∧
    _dbus_path_to_name "/org/freedesktop/systemd1/unit/web_2eservice" =
      "web.service" ∧
    _dbus_path_to_name (_name_to_dbus_path "a-b_c") = "a-b_c" := by
  refine ⟨by decide, by decide, by decide, by decide, by decide, by decide, by decide⟩

/-- C1: the spec claims `_dbus_path_to_name (_name_to_dbus_path x) = x` for
every `x` over the permitted charset (letters, digits, `@ . _ - \`). The code
violates this: encoding replaces `@` with `_40` and then the later `_ → _5f`
pass rewrites the escape itself to `_5f40`; decoding applies `_40 → @` before
`_5f → _` and therefore cannot recover. This theorem evaluates the code at the
failing inputs `"@"` and `"web.service"`. -/
theorem C1_codec_roundtrip_failing_inputs :
    _dbus_path_to_name (_name_to_dbus_path "@") = "_40" ∧
    _dbus_path_to_name (_name_to_dbus_path "web.service") = "web_2eservice" ∧
    ("_40" : String) ≠ "@" ∧ ("web_2eservice" : String) ≠ "web.service" := by
  decide

/-- C2: if `svc` is cached with value `prev`, and an inbound signal whose path
decodes to `svc` carries `ActiveState = curr` with `curr` not ending in `"ing"`
and `curr ≠ prev`, then `_systemd_unit_changed` updates the cache entry for
`svc` to `curr` and schedules exactly one notification `{svc, curr, prev}`. -/
theorem C2_filter_reports_settled_change
    (states : List (String × String)) (msg : Message) (svc prev curr : String)
    (hsvc : _dbus_path_to_name msg.path = svc)
    (hprev : dictGet states svc = some prev)
    (hcurr : dictGet msg.properties "ActiveState" = some curr)
    (hing : strEndsWith curr "ing" = false)
    (hne : curr ≠ prev) :
    _systemd_unit_changed states msg =
      ⟨dictSet states svc curr, some ⟨svc, curr, prev⟩, true⟩ ∧
    dictGet (dictSet states svc curr) svc = some curr := by
  constructor
  · simp only [_systemd_unit_changed, hsvc, hcurr, hprev]
    simp [hing, hne]
  · exact dictGet_dictSet_self states svc curr

/-- C2 witness: a signal moving `web.service` from `inactive` to `active`. -/
theorem C2_witness :
    _systemd_unit_changed [("web.service", "inactive")]
        ⟨"/org/freedesktop/systemd1/unit/web_2eservice", [("ActiveState", "active")]⟩ =
      ⟨[("web.service", "active")], some ⟨"web.service", "active", "inactive"⟩, true⟩ ∧
    dictGet [("web.service", "active")] "web.service" = some "active" := by
  have h := C2_filter_reports_settled_change [("web.service", "inactive")]
    ⟨"/org/freedesktop/systemd1/unit/web_2eservice", [("ActiveState", "active")]⟩
    "web.service" "inactive" "active" (by decide) (by decide) (by decide) (by decide)
    (by decide)
  exact h

/-- C3: if `svc` is cached with value `prev` and the inbound signal's
`ActiveState` value `curr` ends with `"ing"` or equals `prev`, then
`_systemd_unit_changed` schedules no notification and leaves the cache
unchanged. -/
theorem C3_filter_drops_transitioning_and_duplicates
    (states : List (String × String)) (msg : Message) (svc prev curr : String)
    (hsvc : _dbus_path_to_name msg.path = svc)
    (hprev : dictGet states svc = some prev)
    (hcurr : dictGet msg.properties "ActiveState" = some curr)
    (hdrop : strEndsWith curr "ing" = true ∨ curr = prev) :
    _systemd_unit_changed states msg = ⟨states, none, false⟩ := by
  simp only [_systemd_unit_changed, hsvc, hcurr, hprev]
  simp [hdrop]

/-- C3 witness: a signal moving `web.service` from `active` to `activating`. -/
theorem C3_witness :
    _systemd_unit_changed [("web.service", "active")]
        ⟨"/org/freedesktop/systemd1/unit/web_2eservice", [("ActiveState", "activating")]⟩ =
      ⟨[("web.service", "active")], none, false⟩ :=
  C3_filter_drops_transitioning_and_duplicates [("web.service", "active")]
    ⟨"/org/freedesktop/systemd1/unit/web_2eservice", [("ActiveState", "activating")]⟩
    "web.service" "active" "activating" (by decide) (by decide) (by decide)
    (Or.inl (by decide))

/-- C4: a signal whose decoded service identifier is not cached produces no
notification and no cache change, regardless of the payload; and
`_systemd_unit_changed` never adds an identifier to the cache (so every cached
identifier was inserted by `_load_services`, the only other writer). -/
theorem C4_filter_drops_unwatched
    (states : List (String × String)) (msg : Message) :
    (dictGet states (_dbus_path_to_name msg.path) = none →
      _systemd_unit_changed states msg = ⟨states, none, false⟩) ∧
    (∀ k, dictGet states k = none →
      dictGet (_systemd_unit_changed states msg).states k = none) := by
  constructor
  · intro h
    simp only [_systemd_unit_changed]
    cases hc : dictGet msg.properties "ActiveState" with
    | none => rfl
    | some curr => rw [h]
  · intro k hk
    simp only [_systemd_unit_changed]
    cases hc : dictGet msg.properties "ActiveState" with
    | none => exact hk
    | some curr =>
      cases hp : dictGet states (_dbus_path_to_name msg.path) with
      | none => exact hk
      | some prev =>
        by_cases hd : strEndsWith curr "ing" = true ∨ curr = prev
        · simp only [if_pos hd]
          exact hk
        · simp only [if_neg hd]
          have hne : _dbus_path_to_name msg.path ≠ k := by
            intro he
            rw [he] at hp
            rw [hp] at hk
            exact Option.noConfusion hk
          rw [dictGet_dictSet_of_ne states k (_dbus_path_to_name msg.path) curr hne]
          exact hk

/-- C4 witness: a signal for uncached `db.service` against a cache holding
only `web.service`. -/
theorem C4_witness :
    _systemd_unit_changed [("web.service", "active")]
        ⟨"/org/freedesktop/systemd1/unit/db_2eservice", [("ActiveState", "failed")]⟩ =
      ⟨[("web.service", "active")], none, false⟩ ∧
    dictGet (_systemd_unit_changed [("web.service", "active")]
        ⟨"/org/freedesktop/systemd1/unit/db_2eservice", [("ActiveState", "failed")]⟩).states
      "db.service" = none := by
  have h := C4_filter_drops_unwatched [("web.service", "active")]
    ⟨"/org/freedesktop/systemd1/unit/db_2eservice", [("ActiveState", "failed")]⟩
  exact ⟨h.1 (by decide), h.2 "db.service" (by decide)⟩

/-- C5: `_send_juju_notification` strips a trailing `.service` suffix from the
service identifier, maps `"active"` to `"started"` and every other settled
state to `"stopped"`, and invokes `/usr/bin/juju-exec` with arguments
`(unit, "hooks/service-<name>-<started|stopped>")`; in particular a
transition of `foo` to `"active"` yields `hooks/service-foo-started` and to
`"failed"` yields `hooks/service-foo-stopped`. -/
theorem C5_dispatcher_command (u service state : String) :
    _send_juju_notification u service state =
      ["/usr/bin/juju-exec", u,
        "hooks/" ++ ("service-" ++ specStripName service ++ "-" ++ specTransitionKind state)] ∧
    specTransitionKind "active" = "started" ∧
    specTransitionKind "failed" = "stopped" ∧
    specTransitionKind "inactive" = "stopped" ∧
    _send_juju_notification u "foo.service" "active" =
      ["/usr/bin/juju-exec", u, "hooks/service-foo-started"] ∧
    _send_juju_notification u "foo.service" "failed" =
      ["/usr/bin/juju-exec", u, "hooks/service-foo-stopped"] :=
  ⟨rfl, rfl, rfl, rfl, rfl, rfl⟩

/-- C6: one discovery pass over a directory holding exactly the trigger files
`service-web-started` and `service-web-stopped`, starting from an empty cache,
creates exactly one cache entry, keyed `"web.service"`, and issues exactly one
state query, for `"web.service"`. -/
theorem C6_discovery_single_entry (getState : String → String) :
    _load_services ["service-web-started", "service-web-stopped"] getState [] =
      ⟨[("web.service", getState "web.service")], ["web.service"]⟩ :=
  rfl

theorem discoverStep_mono (g : String → String) (acc : DiscoveryResult)
    (n k v : String) (h : dictGet acc.states k = some v) :
    dictGet (discoverStep g acc n).states k = some v := by
  simp only [discoverStep]
  cases hd : dictGet acc.states (suffixService n) with
  | none => exact dictGet_append_some acc.states _ k v h
  | some w => exact h

theorem foldl_discover_mono (g : String → String) (W : List String)
    (acc : DiscoveryResult) (k v : String) (h : dictGet acc.states k = some v) :
    dictGet ((W.foldl (discoverStep g) acc).states) k = some v := by
  induction W generalizing acc with
  | nil => exact h
  | cons n W ih =>
    rw [List.foldl_cons]
    exact ih _ (discoverStep_mono g acc n k v h)

theorem discoverStep_covers (g : String → String) (acc : DiscoveryResult)
    (n : String) :
    ∃ v, dictGet (discoverStep g acc n).states (suffixService n) = some v := by
  simp only [discoverStep]
  cases hd : dictGet acc.states (suffixService n) with
  | none => exact ⟨g (suffixService n), dictGet_append_self acc.states _ _ hd⟩
  | some w => exact ⟨w, hd⟩

theorem foldl_discover_covers (g : String → String) (W : List String)
    (acc : DiscoveryResult) :
    ∀ n ∈ W, ∃ v,
      dictGet ((W.foldl (discoverStep g) acc).states) (suffixService n) = some v := by
  induction W generalizing acc with
  | nil => intro n hn; cases hn
  | cons m W ih =>
    intro n hn
    rw [List.foldl_cons]
    rcases List.mem_cons.mp hn with rfl | hn
    · obtain ⟨v, hv⟩ := discoverStep_covers g acc n
      exact ⟨v, foldl_discover_mono g W _ _ v hv⟩
    · exact ih _ n hn

theorem discoverStep_id (g : String → String) (acc : DiscoveryResult)
    (n : String) (h : ∃ v, dictGet acc.states (suffixService n) = some v) :
    discoverStep g acc n = acc := by
  obtain ⟨v, hv⟩ := h
  simp only [discoverStep, hv]

theorem foldl_discover_id (g : String → String) (W : List String)
    (S : List (String × String))
    (h : ∀ n ∈ W, ∃ v, dictGet S (suffixService n) = some v) :
    W.foldl (discoverStep g) ⟨S, []⟩ = ⟨S, []⟩ := by
  induction W with
  | nil => rfl
  | cons m W ih =>
    rw [List.foldl_cons, discoverStep_id g _ m (h m (List.mem_cons_self m W))]
    exact ih (fun n hn => h n (List.mem_cons_of_mem m hn))

theorem foldl_discover_queries (g : String → String) (W : List String)
    (S : List (String × String)) (acc : DiscoveryResult)
    (hmono : ∀ k v, dictGet S k = some v → dictGet acc.states k = some v)
    (hq : ∀ q ∈ acc.queries, dictGet S q = none) :
    ∀ q ∈ ((W.foldl (discoverStep g) acc).queries), dictGet S q = none := by
  induction W generalizing acc with
  | nil => exact hq
  | cons m W ih =>
    rw [List.foldl_cons]
    apply ih
    · intro k v hk
      exact discoverStep_mono g acc m k v (hmono k v hk)
    · intro q hq'
      simp only [discoverStep] at hq'
      cases hd : dictGet acc.states (suffixService m) with
      | some w =>
        rw [hd] at hq'
        exact hq q hq'
      | none =>
        rw [hd] at hq'
        rcases List.mem_append.mp hq' with h1 | h2
        · exact hq q h1
        · have hqm : q = suffixService m := by
            simpa using h2
          subst hqm
          cases hS : dictGet S (suffixService m) with
          | none => rfl
          | some v =>
            rw [hmono (suffixService m) v hS] at hd
            exact Option.noConfusion hd

/-- C7: service discovery is additive-only and idempotent: a pass never
removes or modifies an existing cache entry, never queries a service already
cached, and re-running the pass on the cache it produced changes nothing and
issues no query. -/
theorem C7_discovery_additive_idempotent (hookNames : List String)
    (getState : String → String) (states : List (String × String)) :
    (∀ svc v, dictGet states svc = some v →
      dictGet ((_load_services hookNames getState states).states) svc = some v) ∧
    (∀ q ∈ (_load_services hookNames getState states).queries,
      dictGet states q = none) ∧
    _load_services hookNames getState
        ((_load_services hookNames getState states).states) =
      ⟨(_load_services hookNames getState states).states, []⟩ := by
  refine ⟨?_, ?_, ?_⟩
  · intro svc v h
    exact foldl_discover_mono getState _ ⟨states, []⟩ svc v h
  · apply foldl_discover_queries getState _ states ⟨states, []⟩
    · intro k v hk
      exact hk
    · intro q hq
      cases hq
  · apply foldl_discover_id
    intro n hn
    exact foldl_discover_covers getState _ ⟨states, []⟩ n hn

/-- C7 witness: one pass over `service-web-started` on a cache already holding
`db.service` leaves the `db.service` entry intact. -/
theorem C7_witness :
    dictGet ((_load_services ["service-web-started"] (fun _ => "active")
      [("db.service", "failed")]).states) "db.service" = some "failed" :=
  (C7_discovery_additive_idempotent ["service-web-started"] (fun _ => "active")
    [("db.service", "failed")]).1 "db.service" "failed" (by decide)

/-- C8: when the bus property query against a unit's object path raises a
`DBusError` (e.g. the unit does not exist), `_get_state` returns `"unknown"`
instead of propagating the error, and a discovery pass then inserts the
service with state `"unknown"` instead of failing. -/
theorem C8_missing_unit_state_unknown (query : String → Except DBusError String)
    (svc : String) (e : DBusError) :
    (query (_name_to_dbus_path svc) = Except.error e →
      _get_state query svc = "unknown") ∧
    (query (_name_to_dbus_path "web.service") = Except.error e →
      _load_services ["service-web-started"] (_get_state query) [] =
        ⟨[("web.service", "unknown")], ["web.service"]⟩) := by
  constructor
  · intro h
    simp only [_get_state, h]
  · intro h
    have h1 : _load_services ["service-web-started"] (_get_state query) [] =
        ⟨[("web.service", _get_state query "web.service")], ["web.service"]⟩ := rfl
    have h2 : _get_state query "web.service" = "unknown" := by
      simp only [_get_state, h]
    rw [h1, h2]

/-- C8 witness: a bus on which every query raises. -/
theorem C8_witness :
    _get_state (fun _ => Except.error ⟨"org.freedesktop.DBus.Error.UnknownObject"⟩)
      "web.service" = "unknown" ∧
    _load_services ["service-web-started"]
        (_get_state (fun _ => Except.error ⟨"org.freedesktop.DBus.Error.UnknownObject"⟩)) [] =
      ⟨[("web.service", "unknown")], ["web.service"]⟩ :=
  ⟨(C8_missing_unit_state_unknown
      (fun _ => Except.error ⟨"org.freedesktop.DBus.Error.UnknownObject"⟩)
      "web.service" ⟨"org.freedesktop.DBus.Error.UnknownObject"⟩).1 rfl,
   (C8_missing_unit_state_unknown
      (fun _ => Except.error ⟨"org.freedesktop.DBus.Error.UnknownObject"⟩)
      "web.service" ⟨"org.freedesktop.DBus.Error.UnknownObject"⟩).2 rfl⟩

theorem replace1_single (a b : Char) (l : List Char) :
    replace1 a [b] l = l.map (fun c => if c = a then b else c) := by
  induction l with
  | nil => rfl
  | cons x xs ih =>
    by_cases h : x = a <;> simp [replace1, h, ih]

theorem map_dash (s : List Char) :
    (s.map (fun c => if c = '-' then '_' else c) = s) ↔ '-' ∉ s := by
  induction s with
  | nil => simp
  | cons x xs ih =>
    simp only [List.map_cons, List.mem_cons, not_or]
    by_cases h : x = '-'
    · subst h
      rw [if_pos rfl]
      constructor
      · intro hh
        injection hh with h1 h2
        exact absurd h1 (by decide)
      · intro hh
        exact absurd rfl hh.1
    · rw [if_neg h]
      constructor
      · intro hh
        injection hh with h1 h2
        exact ⟨fun hc => h hc.symm, ih.mp h2⟩
      · intro hh
        rw [ih.mpr hh.2]

theorem pyRfind_eq_none (c : Char) (l : List Char) (h : c ∉ l) :
    pyRfind c l = none := by
  induction l with
  | nil => rfl
  | cons x xs ih =>
    simp only [List.mem_cons, not_or] at h
    have hx : ¬x = c := fun hc => h.1 hc.symm
    simp [pyRfind, ih h.2, hx]

theorem pyRfind_cons_some (c x : Char) (l : List Char) (j : Nat)
    (h : pyRfind c l = some j) : pyRfind c (x :: l) = some (j + 1) := by
  unfold pyRfind
  rw [h]

theorem pyRfind_append (c : Char) (l l' : List Char) (j : Nat)
    (h : pyRfind c l' = some j) : pyRfind c (l ++ l') = some (l.length + j) := by
  induction l with
  | nil => simpa using h
  | cons x xs ih =>
    rw [List.cons_append, pyRfind_cons_some c x (xs ++ l') (xs.length + j) ih]
    congr 1
    simp only [List.length_cons]
    omega

theorem pyRfind_sep (S e : List Char) (hd : '.' ∉ e) :
    pyRfind '.' (S ++ '.' :: e) = some S.length := by
  have h0 : pyRfind '.' ('.' :: e) = some 0 := by
    simp [pyRfind, pyRfind_eq_none '.' e hd]
  have h1 := pyRfind_append '.' S ('.' :: e) 0 h0
  simpa using h1

theorem pySuffix_sep (S e : List Char) (hS : S ≠ []) (he : e ≠ []) (hd : '.' ∉ e) :
    pySuffix (S ++ '.' :: e) = '.' :: e := by
  unfold pySuffix
  rw [pyRfind_sep S e hd]
  have h1 : 0 < S.length := List.length_pos.mpr hS
  have he' : 0 < e.length := List.length_pos.mpr he
  have h2 : S.length + 1 < (S ++ '.' :: e).length := by
    simp only [List.length_append, List.length_cons]
    omega
  show (if 0 < S.length ∧ S.length + 1 < (S ++ '.' :: e).length
    then List.drop S.length (S ++ '.' :: e) else []) = '.' :: e
  rw [if_pos ⟨h1, h2⟩]
  exact List.drop_left S ('.' :: e)

theorem noticeEvent_record (s e : List Char) (hs : s ≠ []) (he : e ≠ [])
    (hd : '.' ∉ e) :
    noticeEventOfFilename (record_event_filename s e) =
      "service-".data ++ replace1 '-' ['_'] s ++ '-' :: e := by
  have hSlen : (replace1 '-' ['_'] s).length = s.length := by
    rw [replace1_single]
    exact List.length_map s _
  have hSne : replace1 '-' ['_'] s ≠ [] := by
    intro h
    apply hs
    have := congrArg List.length h
    rw [hSlen] at this
    exact List.eq_nil_of_length_eq_zero this
  show noticeEventOfFilename (replace1 '-' ['_'] s ++ '.' :: e) =
    "service-".data ++ replace1 '-' ['_'] s ++ '-' :: e
  unfold noticeEventOfFilename
  rw [pySuffix_sep _ e hSne he hd]
  simp only [List.isEmpty_cons, Bool.false_eq_true, if_false,
    List.length_append, List.length_cons]
  have hsub : (replace1 '-' ['_'] s).length + (e.length + 1) - (e.length + 1) =
      (replace1 '-' ['_'] s).length := by omega
  rw [hsub, List.take_left]
  rfl

/-- C9: in the polling path, `record_event` stores the notice for service `s`
and event `e` under the file name `s.replace('-','_') + "." + e`, and
`process_notices` rebuilds the hook name from that file name without reversing
the replacement, delivering `service-<s.replace('-','_')>-<e>`; this equals
`service-<s>-<e>` exactly when `s` contains no `-`. (Stated for a nonempty
service name and a nonempty, dot-free event name, the shape of every event the
recorder is invoked with.) -/
theorem C9_polling_hook_name (s e : List Char) (hs : s ≠ []) (he : e ≠ [])
    (hd : '.' ∉ e) :
    noticeEventOfFilename (record_event_filename s e) =
      "service-".data ++ replace1 '-' ['_'] s ++ '-' :: e ∧
    (noticeEventOfFilename (record_event_filename s e) =
        "service-".data ++ s ++ '-' :: e ↔ '-' ∉ s) := by
  have h1 := noticeEvent_record s e hs he hd
  refine ⟨h1, ?_⟩
  rw [h1]
  constructor
  · intro h2
    have h3 : "service-".data ++ replace1 '-' ['_'] s = "service-".data ++ s :=
      List.append_cancel_right h2
    have h4 : replace1 '-' ['_'] s = s := List.append_cancel_left h3
    rw [replace1_single] at h4
    exact (map_dash s).mp h4
  · intro h2
    have h4 : replace1 '-' ['_'] s = s := by
      rw [replace1_single]
      exact (map_dash s).mpr h2
    rw [h4]

/-- C9 witness: service `my-svc`, event `started`: the delivered hook is
`service-my_svc-started`, not `service-my-svc-started`. -/
theorem C9_witness :
    noticeEventOfFilename (record_event_filename "my-svc".data "started".data) =
      "service-".data ++ replace1 '-' ['_'] "my-svc".data ++ '-' :: "started".data ∧
    (noticeEventOfFilename (record_event_filename "my-svc".data "started".data) =
        "service-".data ++ "my-svc".data ++ '-' :: "started".data ↔
      '-' ∉ "my-svc".data) :=
  C9_polling_hook_name "my-svc".data "started".data (by decide) (by decide) (by decide)

theorem process_notices_attempted (exec : List (List Char) → Nat)
    (l : List Notice) :
    ∀ n ∈ l, (unitFieldToUnit n.unitField, noticeEventOfFilename n.name) ∈
      (process_notices exec l).attempted := by
  induction l with
  | nil => intro n hn; cases hn
  | cons m ns ih =>
    intro n hn
    simp only [process_notices]
    rcases List.mem_cons.mp hn with rfl | hn
    · split
      · exact List.mem_cons_self _ _
      · exact List.mem_cons_self _ _
    · split
      · exact List.mem_cons_of_mem _ (ih n hn)
      · exact List.mem_cons_of_mem _ (ih n hn)

theorem process_notices_remaining (exec : List (List Char) → Nat)
    (l : List Notice) (n : Notice) :
    n ∈ (process_notices exec l).remaining ↔
      n ∈ l ∧ send_event exec (unitFieldToUnit n.unitField)
        (noticeEventOfFilename n.name) = false := by
  induction l with
  | nil => simp [process_notices]
  | cons m ns ih =>
    simp only [process_notices]
    by_cases h : send_event exec (unitFieldToUnit m.unitField)
        (noticeEventOfFilename m.name) = true
    · rw [if_pos h]
      rw [show ((⟨(process_notices exec ns).remaining,
          (unitFieldToUnit m.unitField, noticeEventOfFilename m.name) ::
            (process_notices exec ns).attempted⟩ : PollResult).remaining =
          (process_notices exec ns).remaining) from rfl]
      rw [ih]
      constructor
      · rintro ⟨hn, hs⟩
        exact ⟨List.mem_cons_of_mem m hn, hs⟩
      · rintro ⟨hn, hs⟩
        rcases List.mem_cons.mp hn with rfl | hn
        · rw [h] at hs
          exact absurd hs (by decide)
        · exact ⟨hn, hs⟩
    · rw [if_neg h]
      have hfalse : send_event exec (unitFieldToUnit m.unitField)
          (noticeEventOfFilename m.name) = false := by
        cases hsv : send_event exec (unitFieldToUnit m.unitField)
          (noticeEventOfFilename m.name)
        · rfl
        · exact absurd hsv h
      simp only [List.mem_cons, ih]
      constructor
      · rintro (rfl | ⟨hn, hs⟩)
        · exact ⟨Or.inl rfl, hfalse⟩
        · exact ⟨Or.inr hn, hs⟩
      · rintro ⟨rfl | hn, hs⟩
        · exact Or.inl rfl
        · exact Or.inr ⟨hn, hs⟩

/-- C10: in the polling path, every notice file's event is attempted on every
pass; a notice file is removed (absent from `remaining`) iff its delivery
succeeded, i.e. iff the external `juju-exec` command exited 0; a failed
notice survives the pass and is re-attempted on the next one — at-least-once
delivery, in contrast with the daemon's drop-on-failure dispatcher. -/
theorem C10_polling_at_least_once (exec : List (List Char) → Nat)
    (notices : List Notice) :
    (∀ n ∈ notices,
      (unitFieldToUnit n.unitField, noticeEventOfFilename n.name) ∈
        (process_notices exec notices).attempted) ∧
    (∀ n ∈ notices,
      (n ∈ (process_notices exec notices).remaining ↔
        send_event exec (unitFieldToUnit n.unitField)
          (noticeEventOfFilename n.name) = false)) ∧
    (∀ u ev, send_event exec u ev = true ↔
      exec ["/usr/bin/juju-exec".data, u, "hooks/".data ++ ev] = 0) ∧
    (∀ n ∈ (process_notices exec notices).remaining,
      (unitFieldToUnit n.unitField, noticeEventOfFilename n.name) ∈
        (process_notices exec
          (process_notices exec notices).remaining).attempted) := by
  refine ⟨process_notices_attempted exec notices, ?_, ?_, ?_⟩
  · intro n hn
    rw [process_notices_remaining exec notices n]
    constructor
    · intro h
      exact h.2
    · intro h
      exact ⟨hn, h⟩
  · intro u ev
    simp [send_event]
  · intro n hn
    exact process_notices_attempted exec _ n hn

/-- C10 witness: one notice whose delivery fails (exit status 1) survives the
pass. -/
theorem C10_witness :
    (⟨"web.started".data, "u-0".data⟩ : Notice) ∈
      (process_notices (fun _ => 1) [⟨"web.started".data, "u-0".data⟩]).remaining ↔
    send_event (fun _ => 1) (unitFieldToUnit "u-0".data)
      (noticeEventOfFilename "web.started".data) = false :=
  (C10_polling_at_least_once (fun _ => 1) [⟨"web.started".data, "u-0".data⟩]).2.1
    ⟨"web.started".data, "u-0".data⟩ (by decide)
